import Mathlib

/-!
Shallow embedding of the `repr-rs` library: an invariant-guarded container
(`Repr` / `CacheableRepr`) with lazily and eagerly cached derived reads.

The embedding follows the source:
* `src/repr.rs`       — `Repr`, `Repr::check`, `ReprMutator`/`Drop`.
* `src/cache/mod.rs`  — `CacheableRepr`, `CacheableRepr::lazy`, `CacheableRepr::check`.
* `src/cache/lazy.rs` — the lazy `CacheableRead` (memo slot + `notify`).
* `src/cache/eager.rs`— the eager `CacheableRead` (`read`, `update`, `notify`)
                        and the two `EagerCacheLookup` impls.

`BTreeMap<usize, _>` registries become association lists keyed by `Nat`
(the `usize` obtained from the read function's address).  Rust invariant
closures may carry interior-mutable state, so `Repr::check`'s body is first
modelled over an invocation-indexed predicate (`checkDebug`); the container
itself holds a pure predicate, the faithful translation for the documented
caller contract, and its mutation path instantiates `checkDebug` with it.
Mutation through a `ReprMutator` is modelled by applying an arbitrary
function `T → T` to the value and then running the `Drop` glue (`check`).
The eager background recompute spawned by `update` is modelled by a
`pending` field carrying the cloned value; completing the spawned task is a
separate step (`complete`), and `update(..).await` is `update` followed by
`complete`.
-/

namespace ReprRs

/-- Lookup in the association-list model of `BTreeMap<usize, _>`. -/
def mapLookup {α : Type} : List (Nat × α) → Nat → Option α
  | [], _ => none
  | (k, v) :: rest, key => if k = key then some v else mapLookup rest key

/-- Insert-or-replace in the association-list model of `BTreeMap<usize, _>`. -/
def mapInsert {α : Type} : List (Nat × α) → Nat → α → List (Nat × α)
  | [], key, v => [(key, v)]
  | (k, w) :: rest, key, v =>
    if k = key then (key, v) :: rest else (k, w) :: mapInsert rest key v

/-- Removal in the association-list model of `BTreeMap::remove`. -/
def mapErase {α : Type} : List (Nat × α) → Nat → List (Nat × α)
  | [], _ => []
  | (k, w) :: rest, key =>
    if k = key then mapErase rest key else (k, w) :: mapErase rest key

/-- Apply `f` to every stored entry: the `for cache in ... { cache.notify(data) }`
loop over a registry's values. -/
def mapNotify {α : Type} (f : α → α) (m : List (Nat × α)) : List (Nat × α) :=
  m.map (fun p => (p.1, f p.2))

theorem mapLookup_insert_self {α : Type} (m : List (Nat × α)) (key : Nat) (v : α) :
    mapLookup (mapInsert m key v) key = some v := by
  induction m with
  | nil => simp [mapInsert, mapLookup]
  | cons p rest ih =>
    obtain ⟨k, w⟩ := p
    by_cases hk : k = key
    · simp [mapInsert, hk, mapLookup]
    · simp [mapInsert, hk, mapLookup, ih]

theorem mapLookup_notify {α : Type} (f : α → α) (m : List (Nat × α)) (key : Nat) :
    mapLookup (mapNotify f m) key = (mapLookup m key).map f := by
  induction m with
  | nil => simp [mapNotify, mapLookup]
  | cons p rest ih =>
    obtain ⟨k, w⟩ := p
    by_cases hk : k = key
    · simp [mapNotify, mapLookup, hk]
    · simp [mapNotify, mapLookup, hk] at ih ⊢
      exact ih

theorem mapLookup_erase_self {α : Type} (m : List (Nat × α)) (key : Nat) :
    mapLookup (mapErase m key) key = none := by
  induction m with
  | nil => simp [mapErase, mapLookup]
  | cons p rest ih =>
    obtain ⟨k, w⟩ := p
    by_cases hk : k = key
    · simp [mapErase, hk, ih]
    · simp [mapErase, hk, mapLookup, ih]

theorem mapLookup_erase_ne {α : Type} (m : List (Nat × α)) (key other : Nat)
    (hne : other ≠ key) : mapLookup (mapErase m key) other = mapLookup m other := by
  induction m with
  | nil => simp [mapErase]
  | cons p rest ih =>
    obtain ⟨k, w⟩ := p
    by_cases hk : k = key
    · subst hk
      have hko : ¬k = other := fun hco => hne hco.symm
      simp [mapErase, mapLookup, hko, ih]
    · by_cases hko : k = other
      · subst hko
        simp [mapErase, hk, mapLookup]
      · simp [mapErase, hk, mapLookup, hko, ih]

/-- The failures `Repr::check` can raise: the `assert!` carrying the
container's violation message, and the `debug_assert!` for
non-deterministic invariants. -/
inductive CheckError where
  | invariantViolation (message : String)
  | nonDeterministicInvariant
  deriving DecidableEq

/-- The `for _ in 0..10 { debug_assert!((self.invariant)(data), ...) }` loop of
`Repr::check`, over an invocation-indexed invariant (index = number of prior
invocations of the closure): `n` iterations starting at invocation `k`,
`true` iff every invocation accepts `data`. -/
def debugAssertLoop {T : Type} (invariant : Nat → T → Bool) (data : T) :
    Nat → Nat → Bool
  | _, 0 => true
  | k, n + 1 => invariant k data && debugAssertLoop invariant data (k + 1) n

/-- The check half of `Repr::check` (`src/repr.rs` lines 153-158), over an
invocation-indexed invariant: first the `assert!` with the violation
message (invocation 0), then the loop of 10 `debug_assert!`s (invocations
1..10) whose failure message reports a non-deterministic invariant. -/
def checkDebug {T : Type} (invariant : Nat → T → Bool) (msg : String) (data : T) :
    Except CheckError Unit :=
  if invariant 0 data then
    if debugAssertLoop invariant data 1 10 then .ok ()
    else .error .nonDeterministicInvariant
  else .error (.invariantViolation msg)

theorem debugAssertLoop_const {T : Type} (invariant : T → Bool) (data : T)
    (hinv : invariant data = true) (k n : Nat) :
    debugAssertLoop (fun _ => invariant) data k n = true := by
  induction n generalizing k with
  | zero => rfl
  | succ n ih => simp [debugAssertLoop, hinv, ih]

theorem debugAssertLoop_false_of_mem {T : Type} (invariant : Nat → T → Bool)
    (data : T) (k n i : Nat) (hi : i < n) (hfalse : invariant (k + i) data = false) :
    debugAssertLoop invariant data k n = false := by
  induction n generalizing k i with
  | zero => exact absurd hi (Nat.not_lt_zero i)
  | succ n ih =>
    cases i with
    | zero =>
      simp [debugAssertLoop]
      intro htrue
      rw [Nat.add_zero] at hfalse
      rw [htrue] at hfalse
      cases hfalse
    | succ i =>
      simp [debugAssertLoop]
      intro _
      have : k + 1 + i = k + (i + 1) := by omega
      exact ih (k + 1) i (Nat.lt_of_succ_lt_succ hi) (this ▸ hfalse)

/-- A deterministic (pure) invariant makes `checkDebug` collapse to the plain
invariant test: the 10 debug invocations agree with invocation 0. -/
theorem checkDebug_const {T : Type} (invariant : T → Bool) (msg : String) (data : T) :
    checkDebug (fun _ => invariant) msg data =
      if invariant data then .ok () else .error (.invariantViolation msg) := by
  by_cases hinv : invariant data
  · simp [checkDebug, hinv, debugAssertLoop_const invariant data hinv]
  · simp [checkDebug, hinv]

/-- The lazy `CacheableRead<T, R>` of `src/cache/lazy.rs`: a read function and
an absent/present memo slot (`cache: RefCell<Option<R>>`). -/
structure LazyEntry (T R : Type) where
  read_fn : T → R
  cache : Option R

/-- `lazy::CacheableRead::new`. -/
def LazyEntry.new {T R : Type} (read_fn : T → R) : LazyEntry T R :=
  { read_fn := read_fn, cache := none }

/-- `lazy::CacheableRead::read` (`src/cache/lazy.rs` lines 15-22), returning
the result, the entry afterwards, and how many times `read_fn` was executed
by the call (0 on a hit, 1 on a miss). -/
def LazyEntry.readCounted {T R : Type} (c : LazyEntry T R) (arg : T) :
    R × LazyEntry T R × Nat :=
  match c.cache with
  | some cached => (cached, c, 0)
  | none =>
    let result := c.read_fn arg
    (result, { c with cache := some result }, 1)

/-- `impl Cache for lazy::CacheableRead`: `notify` clears the slot
(`self.cache.replace(None)`), executing nothing. -/
def LazyEntry.notify {T R : Type} (c : LazyEntry T R) : LazyEntry T R :=
  { c with cache := none }

/-- The eager `CacheableRead<T, R>` of `src/cache/eager.rs`: a read function,
the shared slot (`Arc<RwLock<Option<R>>>`), and `pending`, modelling the
`spawn_blocking` recompute currently in flight together with the clone of
the value it captured (`none` when no task is outstanding). -/
structure EagerEntry (T R : Type) where
  read_fn : T → R
  cache : Option R
  pending : Option T

/-- `eager::CacheableRead::new`. -/
def EagerEntry.new {T R : Type} (read_fn : T → R) : EagerEntry T R :=
  { read_fn := read_fn, cache := none, pending := none }

/-- `eager::CacheableRead::read` (`src/cache/eager.rs` lines 19-25): return the
stored value if present, otherwise compute `read_fn(arg)` inline (without
storing it). -/
def EagerEntry.read {T R : Type} (c : EagerEntry T R) (arg : T) : R :=
  match c.cache with
  | some cached => cached
  | none => c.read_fn arg

/-- `eager::CacheableRead::update` (`src/cache/eager.rs` lines 27-38): clear
the slot and spawn an independent task over a clone of the value; the task
itself has not yet run. -/
def EagerEntry.update {T R : Type} (c : EagerEntry T R) (value : T) : EagerEntry T R :=
  { c with cache := none, pending := some value }

/-- The spawned task of `update` running to completion: it writes
`read_fn(value)` into the shared slot. `update(..).await` is `update`
followed by `complete`. -/
def EagerEntry.complete {T R : Type} (c : EagerEntry T R) : EagerEntry T R :=
  match c.pending with
  | some value => { c with cache := some (c.read_fn value), pending := none }
  | none => c

/-- `impl Cache for eager::CacheableRead`: `notify` fires `update` and drops
the join handle (fire-and-forget). -/
def EagerEntry.notify {T R : Type} (c : EagerEntry T R) (value : T) : EagerEntry T R :=
  c.update value

/-- The guarded container (`Repr` of `src/repr.rs` / `CacheableRepr` of
`src/cache/mod.rs`): the wrapped value, the invariant predicate, the
violation message, and the two registries keyed by read-function identity
(the `usize` address used as `BTreeMap` key). Lazy entries have result type
`R`, eager entries result type `S`. -/
structure CacheableRepr (T R S : Type) where
  value : T
  invariant : T → Bool
  violation_message : String
  caches : List (Nat × LazyEntry T R)
  eager_caches : List (Nat × EagerEntry T S)

/-- `Repr::new` / `CacheableRepr::new`: store value and invariant with the
default message; no validity check, registries empty. -/
def CacheableRepr.new {T R S : Type} (inner : T) (invariant : T → Bool) :
    CacheableRepr T R S :=
  { value := inner
    invariant := invariant
    violation_message := "Invariant violated"
    caches := []
    eager_caches := [] }

/-- `Repr::with_msg` / `CacheableRepr::with_msg`: as `new` with a caller
supplied violation message. -/
def CacheableRepr.with_msg {T R S : Type} (inner : T) (invariant : T → Bool)
    (violation_message : String) : CacheableRepr T R S :=
  { value := inner
    invariant := invariant
    violation_message := violation_message
    caches := []
    eager_caches := [] }

/-- `Repr::read` / `CacheableRepr::read` / `Repr::borrow`: a read-only view of
the live value, bypassing the caches. -/
def CacheableRepr.read {T R S : Type} (r : CacheableRepr T R S) : T :=
  r.value

/-- A full mutation scope: `borrow_mut()` / `write()` hands out exclusive
mutable access (the caller edits via `m : T → T`), and dropping the
`ReprMutator` runs `check` on the mutated value (`src/repr.rs` lines
231-235, `src/cache/mod.rs` lines 242-246): the `assert!`/`debug_assert!`
sequence of `Repr::check`, then — only when it passes — `notify` on every
lazy and eager entry. The container keeps the mutated value whether or not
the check passes (the mutation happened in place; no rollback). -/
def CacheableRepr.writeWith {T R S : Type} (r : CacheableRepr T R S) (m : T → T) :
    Option CheckError × CacheableRepr T R S :=
  let data := m r.value
  let mutated := { r with value := data }
  match checkDebug (fun _ => r.invariant) r.violation_message data with
  | .error e => (some e, mutated)
  | .ok _ =>
    (none,
      { mutated with
        caches := mapNotify LazyEntry.notify mutated.caches
        eager_caches := mapNotify (fun c => EagerEntry.notify c data) mutated.eager_caches })

/-- `CacheableRepr::lazy` (`src/cache/mod.rs` lines 163-171) = `Repr::lazy`
(`src/repr.rs` lines 143-151): look up the entry for the read function's
identity, inserting a fresh one on a miss, then `CacheableRead::read`.
Returns the result, the container afterwards, and the number of times the
entry's read function was executed by the call. -/
def CacheableRepr.lazy {T R S : Type} (r : CacheableRepr T R S) (key : Nat)
    (read_fn : T → R) : R × CacheableRepr T R S × Nat :=
  let cache :=
    match mapLookup r.caches key with
    | some c => c
    | none => LazyEntry.new read_fn
  let (result, cache1, execs) := cache.readCounted r.value
  (result, { r with caches := mapInsert r.caches key cache1 }, execs)

/-- `EagerCacheLookup::eager` for `CacheableRepr` (`src/cache/eager.rs` lines
94-106): `is_empty = !contains_key`; a fresh identity awaits
`update(data)` — modelled as `update` then `complete`, since awaiting the
join handle means the spawned write has finished — before `read`. Returns
the result, the container afterwards, and whether the call awaited the
recompute (its suspension point). -/
def CacheableRepr.eager {T R S : Type} (r : CacheableRepr T R S) (key : Nat)
    (read_fn : T → S) : S × CacheableRepr T R S × Bool :=
  let is_empty := !(mapLookup r.eager_caches key).isSome
  let cache :=
    match mapLookup r.eager_caches key with
    | some c => c
    | none => EagerEntry.new read_fn
  let data := r.value
  let cache1 := if is_empty then (cache.update data).complete else cache
  (cache1.read data, { r with eager_caches := mapInsert r.eager_caches key cache1 },
    is_empty)

/-- `EagerCacheLookup::eager` for `Repr` (`src/repr.rs` lines 179-191).
Identical to the `CacheableRepr` version except for its first line, kept
verbatim from the source: `let is_empty = self.eager_caches.contains_key(..)`
— without the negation the sibling implementation applies. -/
def reprEager {T R S : Type} (r : CacheableRepr T R S) (key : Nat)
    (read_fn : T → S) : S × CacheableRepr T R S × Bool :=
  let is_empty := (mapLookup r.eager_caches key).isSome
  let cache :=
    match mapLookup r.eager_caches key with
    | some c => c
    | none => EagerEntry.new read_fn
  let data := r.value
  let cache1 := if is_empty then (cache.update data).complete else cache
  (cache1.read data, { r with eager_caches := mapInsert r.eager_caches key cache1 },
    is_empty)

/-- `EagerCacheLookup::unregister` (`src/cache/eager.rs` lines 108-111,
`src/repr.rs` lines 193-196): `self.eager_caches.remove(&id).is_some()`. -/
def CacheableRepr.unregister {T R S : Type} (r : CacheableRepr T R S) (key : Nat) :
    Bool × CacheableRepr T R S :=
  ((mapLookup r.eager_caches key).isSome,
    { r with eager_caches := mapErase r.eager_caches key })

/-! Concrete fixtures, used by the witnesses: a `MinMax`-style container over
`Nat` with invariant `n < 5` (the decidable analogue of `min < max` from the
library's tests), one populated lazy entry and one populated eager entry. -/

/-- The test-suite invariant, specialised to a single `Nat`. -/
def sampleInv : Nat → Bool := fun n => decide (n < 5)

/-- A sample lazy read function. -/
def addTen : Nat → Nat := fun n => n + 10

/-- A sample eager read function. -/
def double : Nat → Nat := fun n => 2 * n

/-- A second eager read function computing the same results as `double`,
registered under a distinct identity. -/
def doubleAgain : Nat → Nat := fun n => n + n

/-- A container holding `1`, with `addTen` cached lazily under key `0`
(value `11`) and `double` cached eagerly under key `5` (value `2`). -/
def sampleRepr : CacheableRepr Nat Nat Nat :=
  { value := 1
    invariant := sampleInv
    violation_message := "Invariant violated"
    caches := [(0, { read_fn := addTen, cache := some 11 })]
    eager_caches := [(5, { read_fn := double, cache := some 2, pending := none })] }

/-- `sampleRepr` with a second eager entry (`doubleAgain`, key `7`) and a
refresh in flight on entry `5`. -/
def sampleReprTwoEager : CacheableRepr Nat Nat Nat :=
  { value := 1
    invariant := sampleInv
    violation_message := "Invariant violated"
    caches := [(0, { read_fn := addTen, cache := some 11 })]
    eager_caches :=
      [(5, { read_fn := double, cache := none, pending := some 9 }),
       (7, { read_fn := doubleAgain, cache := some 2, pending := none })] }

/-- A freshly constructed container holding `7` with no registered caches. -/
def sampleFreshRepr : CacheableRepr Nat Nat Nat :=
  CacheableRepr.new 7 (fun _ => true)

/-- C1: closing a mutation scope in a state where the invariant is false
fails with `InvariantViolation` carrying the container's violation message,
and a subsequent read returns the mutated (invalid) value — the container
is not rolled back. -/
theorem rejected_close_reports_violation_and_keeps_mutated_value
    {T R S : Type} (r : CacheableRepr T R S) (m : T → T)
    (hfail : r.invariant (m r.value) = false) :
    (r.writeWith m).1 = some (CheckError.invariantViolation r.violation_message) ∧
      (r.writeWith m).2.read = m r.value := by
  simp [CacheableRepr.writeWith, checkDebug_const, hfail, CacheableRepr.read]

/-- Witness for C1: mutating the sample container's value to `6` (breaking
`n < 5`) fails with the default message and leaves `6` readable. -/
theorem rejected_close_reports_violation_and_keeps_mutated_value_witness :
    sampleRepr.invariant ((fun _ => 6) sampleRepr.value) = false ∧
    (sampleRepr.writeWith (fun _ => 6)).1 =
      some (CheckError.invariantViolation "Invariant violated") ∧
    (sampleRepr.writeWith (fun _ => 6)).2.read = 6 :=
  ⟨by decide,
    (rejected_close_reports_violation_and_keeps_mutated_value sampleRepr
      (fun _ => 6) (by decide)).1,
    (rejected_close_reports_violation_and_keeps_mutated_value sampleRepr
      (fun _ => 6) (by decide)).2⟩

/-- C2: construction (`new` and `with_msg`) never fails and performs no
invariant check; for every initial value and every predicate — including
predicates false on that value — reading immediately after construction
returns the initial value unchanged. -/
theorem construction_performs_no_check {T R S : Type} (inner : T)
    (invariant : T → Bool) (msg : String) :
    (CacheableRepr.new inner invariant : CacheableRepr T R S).read = inner ∧
      (CacheableRepr.with_msg inner invariant msg : CacheableRepr T R S).read = inner :=
  ⟨rfl, rfl⟩

/-- A non-deterministic invariant closure: rejects on its first invocation
and accepts on every later one (the invocation index models the interior
mutability the library's `should_try_to_detect_non_deterministic_invariants`
test uses). -/
def flipInv : Nat → Nat → Bool := fun k _ => decide (0 < k)

/-- An invariant closure that accepts on its first invocation and rejects on
every later one. -/
def flopInv : Nat → Nat → Bool := fun k _ => decide (k < 1)

/-- Counterexample to C3: under `flipInv` the invocations disagree (the
first rejects, the second accepts), yet `Repr::check` fails with the plain
`InvariantViolation` — the normal check runs first, so no
`NonDeterministicInvariant` failure precedes it. -/
theorem nondet_guard_runs_after_normal_check_cex :
    flipInv 0 0 ≠ flipInv 1 0 ∧
    checkDebug flipInv "Invariant violated" 0 =
      .error (.invariantViolation "Invariant violated") ∧
    checkDebug flipInv "Invariant violated" 0 ≠
      .error .nonDeterministicInvariant := by
  refine ⟨by decide, rfl, by simp [checkDebug, flipInv]⟩

/-- C3 (amended): on scope release the normal invariant check runs first;
only when it passes is the invariant invoked up to 10 additional times on
the same state (debug mode), and a `NonDeterministicInvariant` failure is
raised — before cache notification — whenever one of those additional
invocations disagrees with the successful check. -/
theorem nondet_guard_after_normal_check {T : Type} (invariant : Nat → T → Bool)
    (msg : String) (data : T) :
    (invariant 0 data = false →
      checkDebug invariant msg data = .error (.invariantViolation msg)) ∧
    (invariant 0 data = true →
      ∀ i, i < 10 → invariant (1 + i) data = false →
        checkDebug invariant msg data = .error .nonDeterministicInvariant) := by
  constructor
  · intro hfalse
    simp [checkDebug, hfalse]
  · intro htrue i hi hfalse
    have hloop := debugAssertLoop_false_of_mem invariant data 1 10 i hi hfalse
    simp [checkDebug, htrue, hloop]

/-- Witness for C3 (amended): `flopInv` passes the normal check on state `0`
and then disagrees with it, producing `NonDeterministicInvariant`; `flipInv`
fails the normal check on state `0`, producing `InvariantViolation`. -/
theorem nondet_guard_after_normal_check_witness :
    checkDebug flopInv "Invariant violated" 0 =
      .error .nonDeterministicInvariant ∧
    checkDebug flipInv "Invariant violated" 0 =
      .error (.invariantViolation "Invariant violated") :=
  ⟨(nondet_guard_after_normal_check flopInv "Invariant violated" 0).2
      (by decide) 0 (by decide) (by decide),
    (nondet_guard_after_normal_check flipInv "Invariant violated" 0).1 (by decide)⟩

/-- C4: lazy reads are idempotent — two consecutive `lazy(f)` calls under the
same identity with no intervening commit return identical values, and the
entry's read function is executed at most once across the two calls. -/
theorem lazy_reads_idempotent {T R S : Type} (r : CacheableRepr T R S)
    (key : Nat) (f : T → R) :
    (((r.lazy key f).2.1.lazy key f).1 = (r.lazy key f).1) ∧
    (r.lazy key f).2.2 + ((r.lazy key f).2.1.lazy key f).2.2 ≤ 1 := by
  cases hlook : mapLookup r.caches key with
  | none =>
    simp [CacheableRepr.lazy, hlook, LazyEntry.new, LazyEntry.readCounted,
      mapLookup_insert_self]
  | some c =>
    cases hcache : c.cache with
    | none =>
      simp [CacheableRepr.lazy, hlook, hcache, LazyEntry.readCounted,
        mapLookup_insert_self]
    | some v =>
      simp [CacheableRepr.lazy, hlook, hcache, LazyEntry.readCounted,
        mapLookup_insert_self]

/-- C5: a committed mutation clears every lazy entry without executing its
read function, and the next `lazy` call on a previously registered identity
recomputes that identity's read function on the post-commit value (one
execution) and returns the result. -/
theorem commit_clears_lazy_and_next_read_recomputes {T R S : Type}
    (r : CacheableRepr T R S) (m : T → T)
    (hok : r.invariant (m r.value) = true) :
    (r.writeWith m).1 = none ∧
    (∀ k e, mapLookup (r.writeWith m).2.caches k = some e → e.cache = none) ∧
    (∀ k f c, mapLookup r.caches k = some { read_fn := f, cache := c } →
      ((r.writeWith m).2.lazy k f).1 = f (m r.value) ∧
      ((r.writeWith m).2.lazy k f).2.2 = 1) := by
  refine ⟨?_, ?_, ?_⟩
  · simp [CacheableRepr.writeWith, checkDebug_const, hok]
  · intro k e hlook
    simp [CacheableRepr.writeWith, checkDebug_const, hok, mapLookup_notify] at hlook
    obtain ⟨e0, _, he⟩ := hlook
    rw [← he]
    rfl
  · intro k f c hlook
    have hpost : mapLookup (r.writeWith m).2.caches k =
        some { read_fn := f, cache := none } := by
      simp [CacheableRepr.writeWith, checkDebug_const, hok, mapLookup_notify, hlook,
        LazyEntry.notify]
    have hval : (r.writeWith m).2.value = m r.value := by
      simp [CacheableRepr.writeWith, checkDebug_const, hok]
    constructor
    · simp [CacheableRepr.lazy, hpost, hval, LazyEntry.readCounted]
    · simp [CacheableRepr.lazy, hpost, LazyEntry.readCounted]

/-- Witness for C5: committing `1 ↦ 4` in the sample container succeeds,
clears the lazy entry for `addTen`, and the next `lazy` call returns
`addTen 4 = 14` with exactly one execution. -/
theorem commit_clears_lazy_and_next_read_recomputes_witness :
    sampleRepr.invariant ((fun _ => 4) sampleRepr.value) = true ∧
    (sampleRepr.writeWith (fun _ => 4)).1 = none ∧
    ((sampleRepr.writeWith (fun _ => 4)).2.lazy 0 addTen).1 = 14 ∧
    ((sampleRepr.writeWith (fun _ => 4)).2.lazy 0 addTen).2.2 = 1 :=
  ⟨by decide,
    (commit_clears_lazy_and_next_read_recomputes sampleRepr (fun _ => 4)
      (by decide)).1,
    ((commit_clears_lazy_and_next_read_recomputes sampleRepr (fun _ => 4)
      (by decide)).2.2 0 addTen (some 11) rfl).1,
    ((commit_clears_lazy_and_next_read_recomputes sampleRepr (fun _ => 4)
      (by decide)).2.2 0 addTen (some 11) rfl).2⟩

/-- C10: a rejected mutation performs no cache notification — both
registries are exactly as before the mutation — so a `lazy` call after the
rejection still returns the stale pre-mutation cached result with zero
executions of the read function. -/
theorem rejected_close_preserves_lazy_caches {T R S : Type}
    (r : CacheableRepr T R S) (m : T → T)
    (hfail : r.invariant (m r.value) = false) :
    (r.writeWith m).2.caches = r.caches ∧
    (r.writeWith m).2.eager_caches = r.eager_caches ∧
    (∀ k f v, mapLookup r.caches k = some { read_fn := f, cache := some v } →
      ((r.writeWith m).2.lazy k f).1 = v ∧
      ((r.writeWith m).2.lazy k f).2.2 = 0) := by
  have hstate : (r.writeWith m).2 = { r with value := m r.value } := by
    simp [CacheableRepr.writeWith, checkDebug_const, hfail]
  refine ⟨by rw [hstate], by rw [hstate], ?_⟩
  intro k f v hlook
  rw [hstate]
  constructor
  · simp [CacheableRepr.lazy, hlook, LazyEntry.readCounted]
  · simp [CacheableRepr.lazy, hlook, LazyEntry.readCounted]

/-- Witness for C10: after the rejected mutation `1 ↦ 6`, `lazy` under key
`0` still returns the stale `11` without executing `addTen` — not
`addTen 6 = 16`, the value for the live (invalid) state. -/
theorem rejected_close_preserves_lazy_caches_witness :
    sampleRepr.invariant ((fun _ => 6) sampleRepr.value) = false ∧
    ((sampleRepr.writeWith (fun _ => 6)).2.lazy 0 addTen).1 = 11 ∧
    ((sampleRepr.writeWith (fun _ => 6)).2.lazy 0 addTen).2.2 = 0 ∧
    addTen ((sampleRepr.writeWith (fun _ => 6)).2.read) = 16 :=
  ⟨by decide,
    ((rejected_close_preserves_lazy_caches sampleRepr (fun _ => 6)
      (by decide)).2.2 0 addTen 11 rfl).1,
    ((rejected_close_preserves_lazy_caches sampleRepr (fun _ => 6)
      (by decide)).2.2 0 addTen 11 rfl).2,
    by decide⟩

/-- The eager read function used for the first-registration evaluation. -/
def addOne : Nat → Nat := fun n => n + 1

/-- C6: evaluation of both `eager` implementations on a first registration
(no entry for the identity yet). The `CacheableRepr` implementation
(`src/cache/eager.rs`) awaits the initial recompute and leaves the entry's
stored value populated with `read_fn(value)`; the `Repr` implementation
(`src/repr.rs`) computes `is_empty` without the negation, so the first call
awaits nothing and leaves the entry's stored value absent — the returned
value is still `read_fn(value)`, computed inline by `read` and discarded. -/
theorem repr_eager_first_call_skips_initial_store :
    (reprEager sampleFreshRepr 0 addOne).1 = 8 ∧
    (reprEager sampleFreshRepr 0 addOne).2.2 = false ∧
    (mapLookup (reprEager sampleFreshRepr 0 addOne).2.1.eager_caches 0).map
      (fun e => e.cache) = some none ∧
    (sampleFreshRepr.eager 0 addOne).1 = 8 ∧
    (sampleFreshRepr.eager 0 addOne).2.2 = true ∧
    (mapLookup (sampleFreshRepr.eager 0 addOne).2.1.eager_caches 0).map
      (fun e => e.cache) = some (some 8) := by
  refine ⟨rfl, rfl, rfl, rfl, rfl, rfl⟩

/-- C7: once an identity is registered, every subsequent `eager` call on it
(the `CacheableRepr` implementation) performs no await — even while a
background refresh for the entry is in flight — and returns the entry's
currently stored value whenever one is present. -/
theorem eager_subsequent_returns_stored_without_suspending {T R S : Type}
    (r : CacheableRepr T R S) (key : Nat) (f : T → S) (e : EagerEntry T S)
    (hreg : mapLookup r.eager_caches key = some e) :
    (r.eager key f).2.2 = false ∧
    (∀ v, e.cache = some v → (r.eager key f).1 = v) := by
  constructor
  · simp [CacheableRepr.eager, hreg]
  · intro v hv
    simp [CacheableRepr.eager, hreg, EagerEntry.read, hv]

/-- Witness for C7: entry `5` of `sampleReprTwoEager` has a refresh in
flight (`pending = some 9`) — polling it suspends nothing; entry `7` holds
the stored value `2` — polling it returns `2` without suspending. -/
theorem eager_subsequent_returns_stored_without_suspending_witness :
    (sampleReprTwoEager.eager 5 double).2.2 = false ∧
    (sampleReprTwoEager.eager 7 doubleAgain).2.2 = false ∧
    (sampleReprTwoEager.eager 7 doubleAgain).1 = 2 :=
  ⟨(eager_subsequent_returns_stored_without_suspending sampleReprTwoEager 5 double
      { read_fn := double, cache := none, pending := some 9 } rfl).1,
    (eager_subsequent_returns_stored_without_suspending sampleReprTwoEager 7
      doubleAgain { read_fn := doubleAgain, cache := some 2, pending := none } rfl).1,
    (eager_subsequent_returns_stored_without_suspending sampleReprTwoEager 7
      doubleAgain { read_fn := doubleAgain, cache := some 2, pending := none } rfl).2
      2 rfl⟩

/-- C8: a committed mutation replaces every registered eager entry by one
with the stored value cleared and an independent recompute scheduled on the
post-commit value — the mutation call returns with the recompute still
pending — and once that recompute completes, polling the entry yields its
read function applied to the post-commit state. -/
theorem commit_schedules_eager_refresh_and_poll_converges {T R S : Type}
    (r : CacheableRepr T R S) (m : T → T)
    (hok : r.invariant (m r.value) = true) :
    (r.writeWith m).1 = none ∧
    (∀ k e, mapLookup r.eager_caches k = some e →
      ∃ u, mapLookup (r.writeWith m).2.eager_caches k = some u ∧
        u.read_fn = e.read_fn ∧
        u.cache = none ∧
        u.pending = some (m r.value) ∧
        u.complete.read ((r.writeWith m).2.read) = e.read_fn (m r.value)) := by
  have hpost : (r.writeWith m).2.eager_caches =
      mapNotify (fun c => EagerEntry.notify c (m r.value)) r.eager_caches := by
    simp [CacheableRepr.writeWith, checkDebug_const, hok]
  have hval : (r.writeWith m).2.read = m r.value := by
    simp [CacheableRepr.writeWith, checkDebug_const, hok, CacheableRepr.read]
  refine ⟨by simp [CacheableRepr.writeWith, checkDebug_const, hok], ?_⟩
  intro k e hlook
  refine ⟨(e.notify (m r.value)), ?_, rfl, rfl, rfl, ?_⟩
  · rw [hpost, mapLookup_notify, hlook]
    rfl
  · rw [hval]
    simp [EagerEntry.notify, EagerEntry.update, EagerEntry.complete, EagerEntry.read]

/-- Witness for C8: committing `1 ↦ 4` in the sample container leaves entry
`5` cleared with a recompute pending on `4`, and completing that recompute
makes polling yield `double 4 = 8`. -/
theorem commit_schedules_eager_refresh_and_poll_converges_witness :
    sampleRepr.invariant ((fun _ => 4) sampleRepr.value) = true ∧
    (sampleRepr.writeWith (fun _ => 4)).1 = none ∧
    (∃ u, mapLookup (sampleRepr.writeWith (fun _ => 4)).2.eager_caches 5 = some u ∧
      u.read_fn = double ∧
      u.cache = none ∧
      u.pending = some 4 ∧
      u.complete.read ((sampleRepr.writeWith (fun _ => 4)).2.read) = 8) :=
  ⟨by decide,
    (commit_schedules_eager_refresh_and_poll_converges sampleRepr (fun _ => 4)
      (by decide)).1,
    (commit_schedules_eager_refresh_and_poll_converges sampleRepr (fun _ => 4)
      (by decide)).2 5 { read_fn := double, cache := some 2, pending := none } rfl⟩

/-- C9: `unregister` returns `true` exactly when an eager entry for the
identity existed, removes that entry, and leaves every other eager entry,
the lazy registry, and the value untouched. -/
theorem unregister_removes_only_target_entry {T R S : Type}
    (r : CacheableRepr T R S) (key : Nat) :
    ((r.unregister key).1 = true ↔ (mapLookup r.eager_caches key).isSome = true) ∧
    mapLookup (r.unregister key).2.eager_caches key = none ∧
    (∀ k, k ≠ key →
      mapLookup (r.unregister key).2.eager_caches k = mapLookup r.eager_caches k) ∧
    (r.unregister key).2.caches = r.caches ∧
    (r.unregister key).2.value = r.value := by
  refine ⟨Iff.rfl, mapLookup_erase_self r.eager_caches key, ?_, rfl, rfl⟩
  intro k hk
  exact mapLookup_erase_ne r.eager_caches key k hk

/-- Witness for C9: `sampleReprTwoEager` registers `double` (key `5`) and
`doubleAgain` (key `7`), two distinct identities computing equal results;
unregistering key `7` reports `true`, removes only that entry, and leaves
entry `5`, the lazy registry, and the value unchanged. Unregistering the
never-registered key `9` afterwards reports `false`. -/
theorem unregister_removes_only_target_entry_witness :
    (sampleReprTwoEager.unregister 7).1 = true ∧
    mapLookup (sampleReprTwoEager.unregister 7).2.eager_caches 7 = none ∧
    mapLookup (sampleReprTwoEager.unregister 7).2.eager_caches 5 =
      mapLookup sampleReprTwoEager.eager_caches 5 ∧
    (sampleReprTwoEager.unregister 7).2.caches = sampleReprTwoEager.caches ∧
    ((sampleReprTwoEager.unregister 7).2.unregister 9).1 = false :=
  ⟨(unregister_removes_only_target_entry sampleReprTwoEager 7).1.mpr rfl,
    (unregister_removes_only_target_entry sampleReprTwoEager 7).2.1,
    (unregister_removes_only_target_entry sampleReprTwoEager 7).2.2.1 5
      (by decide),
    (unregister_removes_only_target_entry sampleReprTwoEager 7).2.2.2.1,
    Bool.not_eq_true _ ▸ (fun hcontra =>
      nomatch (((unregister_removes_only_target_entry
        (sampleReprTwoEager.unregister 7).2 9).1.mp hcontra).symm.trans rfl))⟩

end ReprRs
